import Mathlib

/-!
Shallow embedding of the QR-code image compositor of qrcreator.link
(src/internal/handlers/qr.go) together with proofs about the spec claims.

Colors are 8-bit RGBA quadruples; bitmaps are width/height plus a total
pixel function on integer coordinates (the Go code only ever reads and
writes coordinates inside [0,w) x [0,h)).  Go float64 arithmetic on the
small geometric constants (0.55, 0.33, 0.4, 0.2, 0.1) is modelled by exact
arithmetic: Go `math.Round(a/b)` for non-negative operands (half away from
zero) is `roundDiv a b = (2a+b)/(2b)`, `math.Ceil(a/b)` is
`ceilDiv a b = (a+b-1)/b`, and Go integer division is truncated division,
which on the non-negative operands appearing here agrees with natural and
Euclidean division.  The magnitudes appearing here are far below the range
where float64 rounding could disagree with the exact value.
-/

/-- Rounding of the fraction a/b to the nearest natural, halves away from
zero: the value of Go `math.Round(float64(a)/float64(b))` (and of
`math.Round(float64(a)*c)` for a decimal constant c = a'/b') for
non-negative operands. -/
def roundDiv (a b : ℕ) : ℕ := (2 * a + b) / (2 * b)

/-- Ceiling of the fraction a/b: the value of Go `math.Ceil` on the same
non-negative operands. -/
def ceilDiv (a b : ℕ) : ℕ := (a + b - 1) / b

/-- An 8-bit RGBA color value (each channel in 0..255). -/
structure RGBA where
  r : ℕ
  g : ℕ
  b : ℕ
  a : ℕ
deriving DecidableEq, Repr

/-- The fully transparent zero pixel (Go `color.RGBA{0,0,0,0}`). -/
def RGBA.clear : RGBA := ⟨0, 0, 0, 0⟩

/-- Opaque white (Go `color.RGBA{255,255,255,255}`). -/
def RGBA.white : RGBA := ⟨255, 255, 255, 255⟩

/-- A mutable RGBA raster of the Go code, as an immutable value: a width, a
height, and a total pixel function on integer coordinates. -/
structure Bitmap where
  w : ℕ
  h : ℕ
  pix : ℤ → ℤ → RGBA

/-- ASCII lower-casing of one character, the fragment of Go
`strings.ToLower` exercised by the handler (all compared strings are
ASCII). -/
def asciiToLower (c : Char) : Char :=
  if 'A' ≤ c ∧ c ≤ 'Z' then Char.ofNat (c.toNat + 32) else c

/-- Value of one hexadecimal digit, as accepted by Go
`strconv.ParseUint(s, 16, 8)` (digits, lower and upper case letters). -/
def hexDigitVal (c : Char) : Option ℕ :=
  if '0' ≤ c ∧ c ≤ '9' then some (c.toNat - '0'.toNat)
  else if 'a' ≤ c ∧ c ≤ 'f' then some (c.toNat - 'a'.toNat + 10)
  else if 'A' ≤ c ∧ c ≤ 'F' then some (c.toNat - 'A'.toNat + 10)
  else none

/-- Go `strconv.ParseUint(param[i:i+2], 16, 8)`: two hex digits make one
byte, anything else is an error. -/
def hexPair (c1 c2 : Char) : Option ℕ :=
  match hexDigitVal c1, hexDigitVal c2 with
  | some h1, some h2 => some (16 * h1 + h2)
  | _, _ => none

/-- Go `strings.TrimPrefix(param, "#")`: drop one leading hash mark if
present. -/
def trimHash (s : List Char) : List Char :=
  match s with
  | c :: rest => if c = '#' then rest else c :: rest
  | [] => []

/-- The three `ParseUint` calls of `parseColorParam` on a (already
hash-stripped) candidate: succeeds exactly on six hex digits. -/
def parseHex6 (s : List Char) : Option (ℕ × ℕ × ℕ) :=
  match s with
  | [c1, c2, c3, c4, c5, c6] =>
    match hexPair c1 c2, hexPair c3 c4, hexPair c5 c6 with
    | some r, some g, some b => some (r, g, b)
    | _, _, _ => none
  | _ => none

/-- `parseColorParam` of qr.go: empty input falls back to the default,
"transparent" (case-insensitive) is the fully transparent color, otherwise
a single leading `#` is stripped and exactly six hex digits are parsed to
an opaque RGBA; any parse failure falls back to the default. -/
def parseColorParam (param : List Char) (defaultColor : RGBA) : RGBA :=
  if param = [] then defaultColor
  else if param.map asciiToLower = "transparent".toList then RGBA.clear
  else
    match parseHex6 (trimHash param) with
    | some (r, g, b) => ⟨r, g, b, 255⟩
    | none => defaultColor

/-- Lower-case hexadecimal digit for a value below 16 (used to state the
round-trip property of the color parser). -/
def hexDigitChar (n : ℕ) : Char :=
  if n < 10 then Char.ofNat ('0'.toNat + n) else Char.ofNat ('a'.toNat + (n - 10))

/-- Canonical six-digit lower-case hex spelling of an (r,g,b) triple. -/
def toHex6 (r g b : ℕ) : List Char :=
  [hexDigitChar (r / 16), hexDigitChar (r % 16),
   hexDigitChar (g / 16), hexDigitChar (g % 16),
   hexDigitChar (b / 16), hexDigitChar (b % 16)]

/-- Format resolution of `QRCodeHandler`: the lower-cased format parameter
falls back to "png" unless it is exactly "png" or "svg"; in particular
"jpg" renders as PNG. -/
def resolveFormat (format : List Char) : List Char :=
  let f := format.map asciiToLower
  if f ≠ "png".toList ∧ f ≠ "svg".toList then "png".toList else f

/-- URL acceptance of `QRCodeHandler`: a missing (empty) `url` query
parameter is answered with BadRequest (`none`); any other string is used
verbatim — the handler performs no trimming, no scheme prepending and no
scheme/host/length validation. -/
def resolveRequestURL (url : List Char) : Option (List Char) :=
  if url = [] then none else some url

/-- Padding width of `addAbsolutePaddingToQRFile`: a truncated percentage
of the recorded original QR size, rescaled proportionally (with another
truncation, `int(float64(p)*scale)`) when the bitmap no longer has that
original size. -/
def paddingPixelsFor (originalSize borderPercent w : ℕ) : ℕ :=
  let p := originalSize * borderPercent / 100
  if w = originalSize then p else p * w / originalSize

/-- `addAbsolutePaddingToQRFile` of qr.go: enlarge the canvas symmetrically
by the padding width, fill the new area with the background color (or leave
it transparent when the background alpha is 0) and copy the original bitmap
into the center. -/
def addAbsolutePaddingToQRFile (borderPercent originalSize : ℕ) (bgColor : RGBA)
    (img : Bitmap) : Bitmap :=
  let p := paddingPixelsFor originalSize borderPercent img.w
  { w := img.w + 2 * p
    h := img.h + 2 * p
    pix := fun x y =>
      if (p : ℤ) ≤ x ∧ x < p + img.w ∧ (p : ℤ) ≤ y ∧ y < p + img.h then
        img.pix (x - p) (y - p)
      else if bgColor.a ≠ 0 then bgColor else RGBA.clear }

/-- The rounded-rectangle hit test of `applySimpleRoundedFrame`: a point is
inside the rounded rectangle (left, top, right, bottom, r), all coordinates
inclusive, if it lies in one of the two axial bands or within distance r of
one of the four corner centers inset by r. -/
def insideRoundedRect (x y left top right bottom r : ℤ) : Bool :=
  if r ≤ 0 then
    x ≥ left && x ≤ right && y ≥ top && y ≤ bottom
  else
    (x ≥ left + r && x ≤ right - r && y ≥ top && y ≤ bottom) ||
    (y ≥ top + r && y ≤ bottom - r && x ≥ left && x ≤ right) ||
    ((x - (left + r)) * (x - (left + r)) + (y - (top + r)) * (y - (top + r)) ≤ r * r) ||
    ((x - (right - r)) * (x - (right - r)) + (y - (top + r)) * (y - (top + r)) ≤ r * r) ||
    ((x - (left + r)) * (x - (left + r)) + (y - (bottom - r)) * (y - (bottom - r)) ≤ r * r) ||
    ((x - (right - r)) * (x - (right - r)) + (y - (bottom - r)) * (y - (bottom - r)) ≤ r * r)

/-- The local rounded-rectangle hit test of `addFrameToQRFile` (used for
the rounded "double" pattern): identical to `insideRoundedRect` except that
a degenerate box is rejected up front. -/
def insideRoundedRectGuarded (x y left top right bottom r : ℤ) : Bool :=
  if left > right ∨ top > bottom then false
  else insideRoundedRect x y left top right bottom r

/-- Whether a pixel lies in the frame band: within `frameWidth` of an edge
of a `width` by `height` canvas (the `isFrameArea` / `inFrame` test of
qr.go). -/
def inFrameBand (x y : ℤ) (width height frameWidth : ℕ) : Prop :=
  x < (frameWidth : ℤ) ∨ x ≥ (width : ℤ) - frameWidth ∨
  y < (frameWidth : ℤ) ∨ y ≥ (height : ℤ) - frameWidth

instance (x y : ℤ) (w h f : ℕ) : Decidable (inFrameBand x y w h f) := by
  unfold inFrameBand; infer_instance

/-- Inner corner radius of the rounded-frame carve:
`max(2, round(frameWidth*0.55))`. -/
def roundedInnerR (frameWidth : ℕ) : ℕ :=
  max 2 (roundDiv (55 * frameWidth) 100)

/-- Outer corner radius of the rounded-frame carve: inner radius plus the
frame width, keeping a uniform stroke thickness. -/
def roundedOuterR (frameWidth : ℕ) : ℕ :=
  roundedInnerR frameWidth + frameWidth

/-- Carve thickness of the rounded frame: `max(2, ceil(frameWidth*0.33))`. -/
def roundedCut (frameWidth : ℕ) : ℕ :=
  max 2 (ceilDiv (33 * frameWidth) 100)

/-- The color the inner carve clears to: white for an opaque background,
transparent otherwise. -/
def innerClearColor (bgColor : RGBA) : RGBA :=
  if bgColor.a = 0 then RGBA.clear else RGBA.white

/-- Left/top edge of the carve rectangle (the inner rectangle expanded
outward by the cut, clamped to the canvas). -/
def carveLow (frameWidth : ℕ) : ℤ :=
  max 0 ((frameWidth : ℤ) - roundedCut frameWidth)

/-- Right/bottom edge of the carve rectangle along a side of length `side`
(the inner rectangle expanded outward by the cut, clamped). -/
def carveHigh (frameWidth side : ℕ) : ℤ :=
  min ((side : ℤ) - 1) ((side : ℤ) - 1 - frameWidth + roundedCut frameWidth)

/-- `applySimpleRoundedFrame` of qr.go: on the frame band only, clear
everything outside the outer rounded rectangle to transparent, then clear
everything inside the carve rectangle (inner rectangle expanded by the cut,
radius innerR + cut) to the inner clear color; all other pixels are kept. -/
def applySimpleRoundedFrame (frameWidth : ℕ) (bgColor : RGBA) (img : Bitmap) : Bitmap :=
  { w := img.w
    h := img.h
    pix := fun x y =>
      if inFrameBand x y img.w img.h frameWidth then
        if ¬ insideRoundedRect x y 0 0 ((img.w : ℤ) - 1) ((img.h : ℤ) - 1)
            (roundedOuterR frameWidth) then
          RGBA.clear
        else if insideRoundedRect x y (carveLow frameWidth) (carveLow frameWidth)
            (carveHigh frameWidth img.w) (carveHigh frameWidth img.h)
            ((roundedInnerR frameWidth : ℤ) + roundedCut frameWidth) then
          innerClearColor bgColor
        else img.pix x y
      else img.pix x y }

/-- `isAntiAliasingArtifact` of qr.go: fully transparent pixels and opaque
exact-foreground pixels are kept; all remaining semi-transparent pixels are
artifacts; remaining opaque pixels are artifacts exactly when light (each
channel above 200) and different from the foreground color. -/
def isAntiAliasingArtifact (r g b a : ℕ) (fgColor : RGBA) : Bool :=
  if a = 0 then false
  else if a = 255 ∧ r = fgColor.r ∧ g = fgColor.g ∧ b = fgColor.b then false
  else if a < 255 then true
  else if (r > 200 ∧ g > 200 ∧ b > 200) ∧
      (r ≠ fgColor.r ∨ g ≠ fgColor.g ∨ b ≠ fgColor.b) then true
  else false

/-- `cleanupAntiAliasing` of qr.go: artifact pixels become fully
transparent, every other pixel is written back unchanged. -/
def cleanupAntiAliasing (fgColor : RGBA) (img : Bitmap) : Bitmap :=
  { img with pix := fun x y =>
      let c := img.pix x y
      if isAntiAliasingArtifact c.r c.g c.b c.a fgColor then RGBA.clear else c }

/-- The conditional cleanup step of `generatePNGQR`: anti-alias cleanup
runs exactly when the requested background alpha is 0. -/
def cleanupIfTransparent (bgColor fgColor : RGBA) (img : Bitmap) : Bitmap :=
  if bgColor.a = 0 then cleanupAntiAliasing fgColor img else img

/-- `lerpColor` of qr.go: per-channel linear interpolation, each channel
truncated to an integer (Go uint8 conversion), alpha fixed at 255. -/
def lerpColor (c1 c2 : RGBA) (t : ℚ) : RGBA :=
  ⟨(⌊(c1.r : ℚ) + t * ((c2.r : ℚ) - (c1.r : ℚ))⌋).toNat,
   (⌊(c1.g : ℚ) + t * ((c2.g : ℚ) - (c1.g : ℚ))⌋).toNat,
   (⌊(c1.b : ℚ) + t * ((c2.b : ℚ) - (c1.b : ℚ))⌋).toNat,
   255⟩

/-- The `calculateFrameColor` closure of `addFrameToQRFile`: the flat frame
color, or the 45-degree three-stop gradient evaluated at the pixel
(`t = (x/W + (1 - y/H)) / 2`, clamped to [0,1], interpolated start to
middle for t ≤ 1/2 and middle to end above). -/
def calculateFrameColor (newWidth newHeight : ℕ) (useGradient : Bool)
    (frameColor gs gm ge : RGBA) (x y : ℤ) : RGBA :=
  if !useGradient then frameColor
  else
    let nx : ℚ := (x : ℚ) / (newWidth : ℚ)
    let ny : ℚ := (y : ℚ) / (newHeight : ℚ)
    let t0 : ℚ := (nx + (1 - ny)) / 2
    let t : ℚ := max 0 (min 1 t0)
    if t ≤ 1 / 2 then lerpColor gs gm (t * 2) else lerpColor gm ge ((t - 1 / 2) * 2)

/-- The base pattern of a frame string: "rounded-" is stripped first, and
any unrecognized pattern falls into the `simple` default branch. -/
inductive BasePattern where
  | simple | dashed | dotted | irregular | double | diagonal | grid
deriving DecidableEq, Repr

/-- Band widths (outer stroke, gap, inner stroke) of the "double" pattern,
including all rebalancing adjustments of qr.go, for the rounded and the
straight variant. -/
def doubleBands (fw : ℕ) (rounded : Bool) : ℤ × ℤ × ℤ :=
  let f : ℤ := fw
  let ow0 : ℤ := max 2 (roundDiv (2 * fw) 5 : ℕ)
  let gw0 : ℤ := max 1 (roundDiv fw 5 : ℕ)
  let iw0 : ℤ := f - ow0 - gw0
  let iw1 : ℤ := if iw0 < 1 then 1 else iw0
  let delta : ℤ := max 1 (roundDiv fw 10 : ℕ)
  let p1 : ℤ × ℤ :=
    if gw0 > delta then (gw0 - delta, iw1 + delta)
    else if gw0 > 1 then (1, iw1 + (gw0 - 1))
    else (gw0, iw1)
  let gw1 := p1.1
  let iw2 := p1.2
  if rounded then
    let dg : ℤ := max 1 (roundDiv fw 10 : ℕ)
    if ow0 > dg + 1 then (ow0 - dg, gw1 + dg, iw2) else (ow0, gw1, iw2)
  else
    let dOut : ℤ := max 1 (roundDiv fw 10 : ℕ)
    let p2 : ℤ × ℤ × ℤ :=
      if gw1 > dOut then (ow0 + dOut, gw1 - dOut, iw2)
      else if gw1 > 1 then (ow0 + (gw1 - 1), 1, iw2)
      else if iw2 > 1 then (ow0 + 1, gw1, iw2 - 1)
      else (ow0, gw1, iw2)
    if p2.2.2 > 2 then (p2.1, p2.2.1 + 1, p2.2.2 - 1) else p2

/-- The `clamp` closure of the rounded "double" branch. -/
def clampI (v lo hi : ℤ) : ℤ := if v < lo then lo else if v > hi then hi else v

/-- Stripe spacing of the diagonal pattern: `max(2, frameWidth/2)` via the
same two-step clamp as qr.go. -/
def diagSpacing (fw : ℕ) : ℤ :=
  if (fw : ℤ) / 2 < 2 then 2 else (fw : ℤ) / 2

/-- Stripe thickness of the diagonal pattern as computed by qr.go:
`frameWidth/5` raised to at least 2, then capped at `spacing - 1` (at
least 1) when it would reach the spacing. -/
def diagThickness (fw : ℕ) : ℤ :=
  let s := diagSpacing fw
  let t0 : ℤ := if (fw : ℤ) / 5 < 2 then 2 else (fw : ℤ) / 5
  if t0 ≥ s then (if s - 1 < 1 then 1 else s - 1) else t0

/-- Color of one frame-band pixel before any rounded-corner carving: the
per-pattern classification loop of `addFrameToQRFile`, evaluated as a pure
function of the pixel coordinates.  `bgColor` is the frame background
passed by the caller (transparent for transparent QRs), `fcAt` the frame
color function. -/
def framePixel (pattern : BasePattern) (rounded : Bool) (fw newWidth newHeight : ℕ)
    (bgColor : RGBA) (fcAt : ℤ → ℤ → RGBA) (x y : ℤ) : RGBA :=
  let f : ℤ := fw
  let W : ℤ := newWidth
  let H : ℤ := newHeight
  let base : RGBA := if bgColor.a ≠ 0 then bgColor else RGBA.clear
  match pattern with
  | .simple => fcAt x y
  | .irregular =>
    if (x < f ∧ y < f) ∨ (x ≥ W - f ∧ y < f) ∨ (x < f ∧ y ≥ H - f) ∨
        (x ≥ W - f ∧ y ≥ H - f) then fcAt x y
    else if (y < f ∨ y ≥ H - f) ∧ x ≥ f ∧ x < W - f then
      let hash := (x * 13) % 17
      let dash := 4 + hash % 8
      let gap := 2 + hash % 4
      if (x - f) % (dash + gap) < dash then fcAt x y else base
    else if (x < f ∨ x ≥ W - f) ∧ y ≥ f ∧ y < H - f then
      let hash := (y * 13) % 17
      let dash := 4 + hash % 8
      let gap := 2 + hash % 4
      if (y - f) % (dash + gap) < dash then fcAt x y else base
    else base
  | .dotted =>
    let ps : ℤ := if f < 6 then 6 else f
    let pr : ℤ := if f / 3 < 2 then 2 else f / 3
    if y < f ∨ y ≥ H - f then
      if x % ps < pr * 2 then
        let cx := x / ps * ps + pr
        let cy := if y ≥ H - f then H - f / 2 else f / 2
        if (x - cx) * (x - cx) + (y - cy) * (y - cy) ≤ pr * pr then bgColor
        else fcAt x y
      else fcAt x y
    else if x < f ∨ x ≥ W - f then
      if y % ps < pr * 2 then
        let cy := y / ps * ps + pr
        let cx := if x ≥ W - f then W - f / 2 else f / 2
        if (x - cx) * (x - cx) + (y - cy) * (y - cy) ≤ pr * pr then bgColor
        else fcAt x y
      else fcAt x y
    else fcAt x y
  | .dashed =>
    let dash : ℤ := if 3 * f < 6 then 6 else 3 * f
    let gap := dash / 2
    let total := dash + gap
    if (x < f ∧ y < f) ∨ (x ≥ W - f ∧ y < f) ∨ (x < f ∧ y ≥ H - f) ∨
        (x ≥ W - f ∧ y ≥ H - f) then fcAt x y
    else if (y < f ∨ y ≥ H - f) ∧ x ≥ f ∧ x < W - f then
      if (x - f) % total < dash then fcAt x y else base
    else if (x < f ∨ x ≥ W - f) ∧ y ≥ f ∧ y < H - f then
      if (y - f) % total < dash then fcAt x y else base
    else base
  | .double =>
    let bands := doubleBands fw rounded
    let ow := bands.1
    let gw := bands.2.1
    let iw := bands.2.2
    if rounded then
      let innerL : ℤ := f
      let innerT : ℤ := f
      let innerRgt : ℤ := W - 1 - f
      let innerBtm : ℤ := H - 1 - f
      let baseR : ℤ := (roundDiv (55 * fw) 100 : ℕ)
      let offIn := iw
      let offGap := iw + gw
      let offOut := iw + gw + ow
      let inL := clampI (innerL - offIn) 0 (W - 1)
      let inT := clampI (innerT - offIn) 0 (H - 1)
      let inR := clampI (innerRgt + offIn) 0 (W - 1)
      let inB := clampI (innerBtm + offIn) 0 (H - 1)
      let rIn := baseR + offIn
      let gL := clampI (innerL - offGap) 0 (W - 1)
      let gT := clampI (innerT - offGap) 0 (H - 1)
      let gR := clampI (innerRgt + offGap) 0 (W - 1)
      let gB := clampI (innerBtm + offGap) 0 (H - 1)
      let rGap := baseR + offGap
      let oL := clampI (innerL - offOut) 0 (W - 1)
      let oT := clampI (innerT - offOut) 0 (H - 1)
      let oR := clampI (innerRgt + offOut) 0 (W - 1)
      let oB := clampI (innerBtm + offOut) 0 (H - 1)
      let rOut := baseR + offOut
      let inInnerCore := insideRoundedRectGuarded x y innerL innerT innerRgt innerBtm baseR
      let inInnerBand := insideRoundedRectGuarded x y inL inT inR inB rIn && !inInnerCore
      let inGapBand := insideRoundedRectGuarded x y gL gT gR gB rGap &&
        !(insideRoundedRectGuarded x y inL inT inR inB rIn)
      let inOuterBand := insideRoundedRectGuarded x y oL oT oR oB rOut &&
        !(insideRoundedRectGuarded x y gL gT gR gB rGap)
      if inOuterBand then fcAt x y
      else if inGapBand then bgColor
      else if inInnerBand then fcAt x y
      else base
    else
      let ed := min (min x y) (min (W - 1 - x) (H - 1 - y))
      if ed < ow then fcAt x y
      else if ed < ow + gw then bgColor
      else if ed < ow + gw + iw then fcAt x y
      else base
  | .diagonal =>
    if (x + y) % diagSpacing fw < diagThickness fw then fcAt x y else base
  | .grid =>
    let g : ℤ := if f / 3 < 2 then 2 else f / 3
    if (x / g + y / g) % 2 = 0 then fcAt x y else base

/-- `addFrameToQRFile` of qr.go, first half: enlarge the canvas by the
frame width on each side, classify and color every frame-band pixel by the
pattern, and copy the original bitmap into the center. -/
def frameCanvas (pattern : BasePattern) (rounded : Bool) (frameWidth : ℕ)
    (bgColor frameColor : RGBA) (useGradient : Bool) (gs gm ge : RGBA)
    (img : Bitmap) : Bitmap :=
  let newWidth := img.w + 2 * frameWidth
  let newHeight := img.h + 2 * frameWidth
  let fcAt := calculateFrameColor newWidth newHeight useGradient frameColor gs gm ge
  { w := newWidth
    h := newHeight
    pix := fun x y =>
      if (frameWidth : ℤ) ≤ x ∧ x < frameWidth + img.w ∧
          (frameWidth : ℤ) ≤ y ∧ y < frameWidth + img.h then
        img.pix (x - frameWidth) (y - frameWidth)
      else
        framePixel pattern rounded frameWidth newWidth newHeight bgColor fcAt x y }

/-- `addFrameToQRFile` of qr.go, second half: rounded variants additionally
run the rounded-corner carving pass over the framed canvas. -/
def addFrameToQRFile (pattern : BasePattern) (rounded : Bool) (frameWidth : ℕ)
    (bgColor frameColor : RGBA) (useGradient : Bool) (gs gm ge : RGBA)
    (img : Bitmap) : Bitmap :=
  let framed := frameCanvas pattern rounded frameWidth bgColor frameColor useGradient gs gm ge img
  if rounded then applySimpleRoundedFrame frameWidth bgColor framed else framed

/-- The preview pre-scale target of `generatePNGQR`:
`round(target / (1 + 2*((border + frameWidthPercent)/100)))`, written over
a common denominator of 100. -/
def desiredPreviewBase (target border frameWidthPercent : ℕ) : ℕ :=
  roundDiv (100 * target) (100 + 2 * (border + frameWidthPercent))

/-- Final bitmap side length of the preview path of `generatePNGQR` for a
render with a decorative frame: if the pre-scale applies (positive desired
base different from the original size), the base is resized to it and then
grows by the truncated padding and frame widths with no further scaling;
otherwise the fully composited image is scaled to exactly the target as a
final step. -/
def previewFinalSize (originalSize target border frameWidthPercent : ℕ) : ℕ :=
  let db := desiredPreviewBase target border frameWidthPercent
  if 0 < db ∧ db ≠ originalSize then
    db + 2 * (db * border / 100) + 2 * (db * frameWidthPercent / 100)
  else target

/-- One element of the generated SVG markup. -/
inductive SVGElem where
  | rect (x y w h : ℤ)
  | circle (cx cy r : ℤ)
  | text
  | gradientDef
deriving DecidableEq, Repr

/-- Whether an SVG element is a `<circle>`. -/
def SVGElem.isCircle : SVGElem → Bool
  | .circle _ _ _ => true
  | _ => false

/-- The per-module element loop of `generateVectorSVG`: one primitive per
dark module, a circle of radius `moduleSize/2` centered in the module cell
for the circle shape, a full-cell rectangle otherwise. -/
def svgModuleElems (m : ℕ → ℕ → Bool) (dim qrOffset ms : ℕ)
    (circleShape : Bool) : List SVGElem :=
  (List.range dim).flatMap fun y =>
    (List.range dim).flatMap fun x =>
      if m x y then
        [if circleShape then
          SVGElem.circle ((qrOffset + x * ms + ms / 2 : ℕ) : ℤ)
            ((qrOffset + y * ms + ms / 2 : ℕ) : ℤ) ((ms / 2 : ℕ) : ℤ)
        else
          SVGElem.rect ((qrOffset + x * ms : ℕ) : ℤ) ((qrOffset + y * ms : ℕ) : ℤ)
            (ms : ℤ) (ms : ℤ)]
      else []

/-- Module pixel size chosen by `generateVectorSVG`: the target size
divided by the matrix dimension. -/
def svgModuleSize (targetSize dim : ℕ) : ℕ := targetSize / dim

/-- Padding width of the SVG document: `(targetSize*border)/100`. -/
def svgPaddingPixels (targetSize border : ℕ) : ℕ := targetSize * border / 100

/-- Frame width of the SVG document: 0 without a frame, otherwise
`(targetSize*frameWidthPercent)/100`. -/
def svgFramePixels (targetSize frameWidthPercent : ℕ) (frameNone : Bool) : ℕ :=
  if frameNone then 0 else targetSize * frameWidthPercent / 100

/-- Total canvas side of the SVG document: target plus twice padding plus
twice frame. -/
def svgTotalSize (targetSize border frameWidthPercent : ℕ) (frameNone : Bool) : ℕ :=
  targetSize + svgPaddingPixels targetSize border * 2 +
    svgFramePixels targetSize frameWidthPercent frameNone * 2

/-- Offset of the QR area inside the SVG document: frame plus padding. -/
def svgQROffset (targetSize border frameWidthPercent : ℕ) (frameNone : Bool) : ℕ :=
  svgFramePixels targetSize frameWidthPercent frameNone +
    svgPaddingPixels targetSize border

/-- The element list of the SVG document built by `generateVectorSVG`:
gradient definition, background rectangle, the four frame border
rectangles, the per-module primitives, the optional center-logo circle and
placeholder rectangle, and the optional branding text. -/
def vectorSVGElems (m : ℕ → ℕ → Bool) (dim targetSize border frameWidthPercent : ℕ)
    (useGradient : Bool) (bgColor : RGBA)
    (frameNone circleShape centerLogo brandingText : Bool) : List SVGElem :=
  (if useGradient then [SVGElem.gradientDef] else []) ++
  (if bgColor.a > 0 then
    [SVGElem.rect 0 0 (svgTotalSize targetSize border frameWidthPercent frameNone : ℤ)
       (svgTotalSize targetSize border frameWidthPercent frameNone : ℤ)]
   else []) ++
  (if frameNone then [] else
    [SVGElem.rect 0 0 (svgTotalSize targetSize border frameWidthPercent frameNone : ℤ)
       (svgFramePixels targetSize frameWidthPercent frameNone : ℤ),
     SVGElem.rect 0
       ((svgTotalSize targetSize border frameWidthPercent frameNone -
           svgFramePixels targetSize frameWidthPercent frameNone : ℕ) : ℤ)
       (svgTotalSize targetSize border frameWidthPercent frameNone : ℤ)
       (svgFramePixels targetSize frameWidthPercent frameNone : ℤ),
     SVGElem.rect 0 (svgFramePixels targetSize frameWidthPercent frameNone : ℤ)
       (svgFramePixels targetSize frameWidthPercent frameNone : ℤ)
       ((svgTotalSize targetSize border frameWidthPercent frameNone -
           2 * svgFramePixels targetSize frameWidthPercent frameNone : ℕ) : ℤ),
     SVGElem.rect
       ((svgTotalSize targetSize border frameWidthPercent frameNone -
           svgFramePixels targetSize frameWidthPercent frameNone : ℕ) : ℤ)
       (svgFramePixels targetSize frameWidthPercent frameNone : ℤ)
       (svgFramePixels targetSize frameWidthPercent frameNone : ℤ)
       ((svgTotalSize targetSize border frameWidthPercent frameNone -
           2 * svgFramePixels targetSize frameWidthPercent frameNone : ℕ) : ℤ)]) ++
  svgModuleElems m dim (svgQROffset targetSize border frameWidthPercent frameNone)
    (svgModuleSize targetSize dim) circleShape ++
  (if centerLogo then
    [SVGElem.circle ((svgTotalSize targetSize border frameWidthPercent frameNone / 2 : ℕ) : ℤ)
       ((svgTotalSize targetSize border frameWidthPercent frameNone / 2 : ℕ) : ℤ)
       ((targetSize / 4 / 2 + 5 : ℕ) : ℤ),
     SVGElem.rect
       ((svgTotalSize targetSize border frameWidthPercent frameNone / 2 -
           targetSize / 4 / 2 : ℕ) : ℤ)
       ((svgTotalSize targetSize border frameWidthPercent frameNone / 2 -
           targetSize / 4 / 2 : ℕ) : ℤ)
       ((targetSize / 4 : ℕ) : ℤ) ((targetSize / 4 : ℕ) : ℤ)]
   else []) ++
  (if brandingText then [SVGElem.text] else [])

/-- Number of dark (true) cells of a `dim` by `dim` module matrix. -/
def darkCount (dim : ℕ) (m : ℕ → ℕ → Bool) : ℕ :=
  ((Finset.range dim ×ˢ Finset.range dim).filter fun p => m p.1 p.2).card

/-- A concrete all-black 336 x 336 bitmap (a base QR of 21 modules at 16
pixels per module). -/
def blackBitmap336 : Bitmap := ⟨336, 336, fun _ _ => ⟨0, 0, 0, 255⟩⟩

/-- A concrete 100 x 100 bitmap with one marked pixel, for the padding
witness. -/
def paddingWitnessBitmap : Bitmap :=
  ⟨100, 100, fun x y => if x = 3 ∧ y = 4 then ⟨1, 2, 3, 255⟩ else RGBA.white⟩

/-- A concrete bitmap whose pixels are all semi-transparent, for the
anti-alias cleanup witness. -/
def cleanupWitnessBitmap : Bitmap := ⟨2, 2, fun _ _ => ⟨10, 20, 30, 128⟩⟩

/-- A concrete 20 x 20 all-gray bitmap used as frame/carve input. -/
def frameWitnessBitmap : Bitmap := ⟨20, 20, fun _ _ => ⟨7, 7, 7, 255⟩⟩

/-- A concrete 2 x 2 bitmap used as input of the diagonal frame
counterexample. -/
def diagWitnessBitmap : Bitmap := ⟨2, 2, fun _ _ => ⟨9, 9, 9, 255⟩⟩

/-- A concrete 2 x 2 module matrix with three dark cells, for the SVG
witness. -/
def svgWitnessMatrix : ℕ → ℕ → Bool := fun x y => x = 0 ∨ (x = 1 ∧ y = 1)

/-- Claim C1 (failing-input evaluation): for the spec scenario
size=preview, previewSize=300, cornerStyle=rounded, borderPattern=simple
(border 7%, pre-carve frame width 6%, base QR 336 = 21 modules x 16 px) the
pre-scale resizes the base to round(300/1.26) = 238, after which the
truncated padding (16) and frame (14) growth produce a 298 x 298 bitmap,
not the claimed exact 300 x 300, and no second scaling pass runs. -/
theorem preview_rounded_300_lands_on_298 :
    previewFinalSize 336 300 7 6 = 298 ∧ previewFinalSize 336 300 7 6 ≠ 300 := by
  constructor <;> decide

/-- Claim C6 (counterexample): a URL with an unsupported scheme such as
ftp:// is accepted verbatim by the handler instead of being rejected with
BadRequest; no normalization or validation beyond the emptiness check
exists. -/
theorem resolveRequestURL_accepts_ftp :
    resolveRequestURL "ftp://example.com".toList = some "ftp://example.com".toList := by
  decide

/-- Claim C6 (amended): the handler rejects exactly the missing (empty)
url parameter with BadRequest and uses every other url string verbatim,
performing no trimming, scheme prepending, or scheme/host/length
validation. -/
theorem resolveRequestURL_only_empty_rejected (url : List Char) :
    (resolveRequestURL url = none ↔ url = []) ∧
    (url ≠ [] → resolveRequestURL url = some url) := by
  unfold resolveRequestURL
  constructor
  · constructor
    · intro h
      by_contra hne
      rw [if_neg hne] at h
      exact Option.noConfusion h
    · intro h
      rw [if_pos h]
  · intro h
    rw [if_neg h]

/-- Witness for the amended claim C6 at a concrete nonempty URL. -/
theorem resolveRequestURL_only_empty_rejected_witness :
    " https://x ".toList ≠ ([] : List Char) ∧
    resolveRequestURL " https://x ".toList = some " https://x ".toList :=
  ⟨by decide, (resolveRequestURL_only_empty_rejected " https://x ".toList).2 (by decide)⟩

/-- Claim C7 (counterexample): a request with format=jpg is normalized to
png by the handler — no JPEG compositing or encoding path exists. -/
theorem resolveFormat_jpg_is_png :
    resolveFormat "jpg".toList = "png".toList := by
  decide

/-- Claim C7 (amended): every format value other than png and svg
(after lower-casing), including jpg, falls back to png, so the response is
always PNG-encoded for such requests. -/
theorem resolveFormat_fallback (format : List Char)
    (h1 : format.map asciiToLower ≠ "png".toList)
    (h2 : format.map asciiToLower ≠ "svg".toList) :
    resolveFormat format = "png".toList := by
  unfold resolveFormat
  rw [if_pos ⟨h1, h2⟩]

/-- Witness for the amended claim C7 at format=jpg. -/
theorem resolveFormat_fallback_witness :
    "jpg".toList.map asciiToLower ≠ "png".toList ∧
    resolveFormat "jpg".toList = "png".toList :=
  ⟨by decide, resolveFormat_fallback "jpg".toList (by decide) (by decide)⟩

/-- Claim C2 (counterexample): the padding step computes its width with
truncating integer division, not rounding: for a 336 x 336 bitmap at its
original size with 7% padding the new side is 336 + 2*23 = 382, while the
claimed formula old + 2*round(336*7/100) gives 336 + 2*24 = 384. -/
theorem padding_width_is_not_round :
    (addAbsolutePaddingToQRFile 7 336 RGBA.white blackBitmap336).w ≠
      336 + 2 * roundDiv (336 * 7) 100 := by
  decide

/-- Claim C2 (amended): the padding step enlarges each dimension by twice
the truncated padding width `(originalSize*borderPercent)/100` (rescaled
with a further truncation when the bitmap width differs from the recorded
original size), and the original bitmap content appears centered exactly
and pixel-identical within the new canvas. -/
theorem addAbsolutePaddingToQRFile_spec (borderPercent originalSize : ℕ)
    (bg : RGBA) (img : Bitmap) :
    (addAbsolutePaddingToQRFile borderPercent originalSize bg img).w
        = img.w + 2 * paddingPixelsFor originalSize borderPercent img.w ∧
    (addAbsolutePaddingToQRFile borderPercent originalSize bg img).h
        = img.h + 2 * paddingPixelsFor originalSize borderPercent img.w ∧
    ∀ x y : ℤ, 0 ≤ x → x < img.w → 0 ≤ y → y < img.h →
      (addAbsolutePaddingToQRFile borderPercent originalSize bg img).pix
          (x + paddingPixelsFor originalSize borderPercent img.w)
          (y + paddingPixelsFor originalSize borderPercent img.w)
        = img.pix x y := by
  refine ⟨rfl, rfl, ?_⟩
  intro x y hx hxw hy hyh
  simp only [addAbsolutePaddingToQRFile]
  split_ifs with h1
  · simp
  all_goals (exfalso; exact h1 (by omega))

/-- Witness for the amended claim C2: the marked pixel of a 100 x 100
bitmap reappears shifted by the 7-pixel padding. -/
theorem addAbsolutePaddingToQRFile_spec_witness :
    (0 : ℤ) ≤ 3 ∧
    (addAbsolutePaddingToQRFile 7 100 RGBA.white paddingWitnessBitmap).pix
        (3 + (paddingPixelsFor 100 7 paddingWitnessBitmap.w : ℤ))
        (4 + (paddingPixelsFor 100 7 paddingWitnessBitmap.w : ℤ))
      = paddingWitnessBitmap.pix 3 4 :=
  ⟨by decide,
   (addAbsolutePaddingToQRFile_spec 7 100 RGBA.white paddingWitnessBitmap).2.2 3 4
     (by decide) (by decide) (by decide) (by decide)⟩

/-- Claim C4: when the requested background alpha is 0, the cleanup pass
maps every pixel as follows — semi-transparent pixels (alpha strictly
between 0 and 255) become fully transparent; fully opaque light pixels
(R,G,B each above 200) that differ from the foreground color become fully
transparent; fully opaque exact-foreground pixels and fully transparent
pixels are preserved unchanged; consequently no pixel of the result has
alpha strictly between 1 and 254. -/
theorem cleanupIfTransparent_spec (bg fg : RGBA) (img : Bitmap) (x y : ℤ)
    (hbg : bg.a = 0) :
    (0 < (img.pix x y).a → (img.pix x y).a < 255 →
      (cleanupIfTransparent bg fg img).pix x y = RGBA.clear) ∧
    ((img.pix x y).a = 255 → 200 < (img.pix x y).r → 200 < (img.pix x y).g →
      200 < (img.pix x y).b →
      ¬((img.pix x y).r = fg.r ∧ (img.pix x y).g = fg.g ∧ (img.pix x y).b = fg.b) →
      (cleanupIfTransparent bg fg img).pix x y = RGBA.clear) ∧
    ((img.pix x y).a = 255 → (img.pix x y).r = fg.r → (img.pix x y).g = fg.g →
      (img.pix x y).b = fg.b →
      (cleanupIfTransparent bg fg img).pix x y = img.pix x y) ∧
    ((img.pix x y).a = 0 → (cleanupIfTransparent bg fg img).pix x y = img.pix x y) ∧
    ((img.pix x y).a = 255 →
      ¬(200 < (img.pix x y).r ∧ 200 < (img.pix x y).g ∧ 200 < (img.pix x y).b) →
      (cleanupIfTransparent bg fg img).pix x y = img.pix x y) ∧
    ((img.pix x y).a ≤ 255 →
      ((cleanupIfTransparent bg fg img).pix x y).a = 0 ∨
      ((cleanupIfTransparent bg fg img).pix x y).a = 255) := by
  have hpix : (cleanupIfTransparent bg fg img).pix x y =
      if isAntiAliasingArtifact (img.pix x y).r (img.pix x y).g (img.pix x y).b
          (img.pix x y).a fg then RGBA.clear else img.pix x y := by
    simp [cleanupIfTransparent, hbg, cleanupAntiAliasing]
  rw [hpix]
  unfold isAntiAliasingArtifact
  refine ⟨?_, ?_, ?_, ?_, ?_, ?_⟩ <;> intros <;> split_ifs <;>
    first
      | rfl
      | omega
      | tauto

/-- Witness for claim C4: a semi-transparent pixel of a concrete bitmap is
forced fully transparent by the cleanup. -/
theorem cleanupIfTransparent_spec_witness :
    RGBA.clear.a = 0 ∧ 0 < (cleanupWitnessBitmap.pix 0 0).a ∧
    (cleanupIfTransparent RGBA.clear ⟨0, 0, 0, 255⟩ cleanupWitnessBitmap).pix 0 0
      = RGBA.clear :=
  ⟨by decide, by decide,
   (cleanupIfTransparent_spec RGBA.clear ⟨0, 0, 0, 255⟩ cleanupWitnessBitmap 0 0
      (by decide)).1 (by decide) (by decide)⟩

/-- Claim C3: for every frame width at least 4 and every frame-band pixel,
the rounded-corner carve leaves pixels outside the outer rounded rectangle
(radius innerR + fw over the whole bitmap) fully transparent, and pixels
inside the carve rounded rectangle (the inner rectangle expanded outward by
cut = max(2, ceil(fw*0.33)), radius innerR + cut) cleared to the background
clear color or transparent; no painted frame pixel remains in either
region. -/
theorem applySimpleRoundedFrame_spec (img : Bitmap) (frameWidth : ℕ) (bg : RGBA)
    (x y : ℤ) (_hfw : 4 ≤ frameWidth)
    (hband : inFrameBand x y img.w img.h frameWidth) :
    (insideRoundedRect x y 0 0 ((img.w : ℤ) - 1) ((img.h : ℤ) - 1)
        (roundedOuterR frameWidth) = false →
      (applySimpleRoundedFrame frameWidth bg img).pix x y = RGBA.clear) ∧
    (insideRoundedRect x y (carveLow frameWidth) (carveLow frameWidth)
        (carveHigh frameWidth img.w) (carveHigh frameWidth img.h)
        ((roundedInnerR frameWidth : ℤ) + roundedCut frameWidth) = true →
      (applySimpleRoundedFrame frameWidth bg img).pix x y = innerClearColor bg ∨
      (applySimpleRoundedFrame frameWidth bg img).pix x y = RGBA.clear) := by
  simp only [applySimpleRoundedFrame]
  rw [if_pos hband]
  constructor
  · intro hout
    rw [if_pos (by simp [hout])]
  · intro hcarve
    by_cases hout : insideRoundedRect x y 0 0 ((img.w : ℤ) - 1) ((img.h : ℤ) - 1)
        (roundedOuterR frameWidth) = true
    · left
      rw [if_neg (by simp [hout]), if_pos hcarve]
    · right
      rw [if_pos (by simpa using hout)]

/-- Witness for claim C3: on a 20 x 20 gray bitmap with frame width 4, the
corner pixel (0,0) lies in the band and outside the outer rounded rectangle
and is cleared to transparent. -/
theorem applySimpleRoundedFrame_spec_witness :
    (4 ≤ 4 ∧ inFrameBand 0 0 frameWitnessBitmap.w frameWitnessBitmap.h 4) ∧
    (applySimpleRoundedFrame 4 RGBA.white frameWitnessBitmap).pix 0 0 = RGBA.clear :=
  ⟨⟨by decide, by decide⟩,
   (applySimpleRoundedFrame_spec frameWitnessBitmap 4 RGBA.white 0 0 (by decide)
      (by decide)).1 (by decide)⟩

/-- The framed canvas is wider than the input by twice the frame width. -/
theorem frameCanvas_w (pattern : BasePattern) (rounded : Bool) (fw : ℕ)
    (bg fc : RGBA) (useGradient : Bool) (gs gm ge : RGBA) (img : Bitmap) :
    (frameCanvas pattern rounded fw bg fc useGradient gs gm ge img).w
      = img.w + 2 * fw := rfl

/-- The framed canvas is taller than the input by twice the frame width. -/
theorem frameCanvas_h (pattern : BasePattern) (rounded : Bool) (fw : ℕ)
    (bg fc : RGBA) (useGradient : Bool) (gs gm ge : RGBA) (img : Bitmap) :
    (frameCanvas pattern rounded fw bg fc useGradient gs gm ge img).h
      = img.h + 2 * fw := rfl

/-- Inside the interior rectangle the framed canvas shows the original
bitmap, shifted by the frame width. -/
theorem frameCanvas_pix_interior (pattern : BasePattern) (rounded : Bool) (fw : ℕ)
    (bg fc : RGBA) (useGradient : Bool) (gs gm ge : RGBA) (img : Bitmap)
    (x y : ℤ) (hx0 : 0 ≤ x) (hxw : x < img.w) (hy0 : 0 ≤ y) (hyh : y < img.h) :
    (frameCanvas pattern rounded fw bg fc useGradient gs gm ge img).pix
      (x + fw) (y + fw) = img.pix x y := by
  simp only [frameCanvas]
  rw [if_pos (by omega)]
  simp

/-- Outside the interior rectangle the framed canvas shows the pattern
classification. -/
theorem frameCanvas_pix_band (pattern : BasePattern) (rounded : Bool) (fw : ℕ)
    (bg fc : RGBA) (useGradient : Bool) (gs gm ge : RGBA) (img : Bitmap)
    (x y : ℤ)
    (h : ¬((fw : ℤ) ≤ x ∧ x < fw + img.w ∧ (fw : ℤ) ≤ y ∧ y < fw + img.h)) :
    (frameCanvas pattern rounded fw bg fc useGradient gs gm ge img).pix x y
      = framePixel pattern rounded fw (img.w + 2 * fw) (img.h + 2 * fw) bg
          (calculateFrameColor (img.w + 2 * fw) (img.h + 2 * fw) useGradient fc gs gm ge)
          x y := by
  simp only [frameCanvas]
  rw [if_neg h]

/-- The carving pass never touches pixels off the frame band. -/
theorem applySimpleRoundedFrame_pix_offband (frameWidth : ℕ) (bg : RGBA)
    (img : Bitmap) (x y : ℤ) (h : ¬ inFrameBand x y img.w img.h frameWidth) :
    (applySimpleRoundedFrame frameWidth bg img).pix x y = img.pix x y := by
  simp only [applySimpleRoundedFrame]
  rw [if_neg h]

/-- Claim C10: for every frame kind, straight or rounded, the frame step
writes only within the frame band — every pixel of the interior region
[fw, fw+w) x [fw, fw+h) of the output equals the corresponding pixel of
the input bitmap. -/
theorem addFrameToQRFile_interior (pattern : BasePattern) (rounded : Bool)
    (fw : ℕ) (bg fc : RGBA) (useGradient : Bool) (gs gm ge : RGBA) (img : Bitmap)
    (x y : ℤ) (hx0 : 0 ≤ x) (hxw : x < img.w) (hy0 : 0 ≤ y) (hyh : y < img.h) :
    (addFrameToQRFile pattern rounded fw bg fc useGradient gs gm ge img).pix
      (x + fw) (y + fw) = img.pix x y := by
  have hcan := frameCanvas_pix_interior pattern rounded fw bg fc useGradient gs gm ge
    img x y hx0 hxw hy0 hyh
  unfold addFrameToQRFile
  cases rounded
  · simpa using hcan
  · simp only [if_true]
    rw [applySimpleRoundedFrame_pix_offband]
    · exact hcan
    · rw [frameCanvas_w, frameCanvas_h]
      unfold inFrameBand
      push_neg
      refine ⟨by omega, by push_cast; omega, by omega, by push_cast; omega⟩

/-- Witness for claim C10: an interior pixel of a concrete rounded-simple
framed bitmap is the original pixel. -/
theorem addFrameToQRFile_interior_witness :
    (0 : ℤ) ≤ 2 ∧ (2 : ℤ) < frameWitnessBitmap.w ∧
    (addFrameToQRFile .simple true 5 RGBA.white ⟨0, 0, 0, 255⟩ false
        RGBA.clear RGBA.clear RGBA.clear frameWitnessBitmap).pix
      (2 + ((5 : ℕ) : ℤ)) (3 + ((5 : ℕ) : ℤ)) = frameWitnessBitmap.pix 2 3 :=
  ⟨by decide, by decide,
   addFrameToQRFile_interior .simple true 5 RGBA.white ⟨0, 0, 0, 255⟩ false
     RGBA.clear RGBA.clear RGBA.clear frameWitnessBitmap 2 3
     (by decide) (by decide) (by decide) (by decide)⟩

/-- Claim C9 (counterexample): with frame width 6 the code paints diagonal
stripes of thickness 2 (the `max(2, fw/5)` clamp), while the claimed
formula `max(1, min(fw/5, spacing-1))` gives thickness 1: band pixel (0,1)
of a framed 2 x 2 bitmap has `(0+1) mod 3 = 1`, is painted with the frame
color by the code, yet the claim says it stays unpainted background. -/
theorem diagonal_thickness_counterexample :
    (addFrameToQRFile .diagonal false 6 RGBA.white ⟨0, 0, 0, 255⟩ false
        RGBA.clear RGBA.clear RGBA.clear diagWitnessBitmap).pix 0 1 = ⟨0, 0, 0, 255⟩ ∧
    ¬((0 + 1 : ℤ) % max 2 ((6 : ℤ) / 2) <
        max 1 (min ((6 : ℤ) / 5) (max 2 ((6 : ℤ) / 2) - 1))) ∧
    (⟨0, 0, 0, 255⟩ : RGBA) ≠ RGBA.white := by
  refine ⟨by decide, by decide, by decide⟩

/-- Claim C9 (amended): for the straight diagonal pattern with flat frame
color, a frame-band pixel is painted with the frame color exactly when
`(x+y) mod spacing < thickness` with `spacing = max(2, fw/2)` and the
code thickness `max(2, fw/5)`, capped at `max(1, spacing-1)` when it
reaches the spacing; otherwise the pixel keeps the band background. -/
theorem framePixel_diagonal (rounded : Bool) (fw W H : ℕ) (bg : RGBA)
    (fcAt : ℤ → ℤ → RGBA) (x y : ℤ) :
    framePixel .diagonal rounded fw W H bg fcAt x y =
      if (x + y) % diagSpacing fw < diagThickness fw then fcAt x y
      else if bg.a ≠ 0 then bg else RGBA.clear := rfl

theorem addFrameToQRFile_diagonal_spec (img : Bitmap) (fw : ℕ) (bg fc gs gm ge : RGBA)
    (x y : ℤ)
    (hband : ¬((fw : ℤ) ≤ x ∧ x < fw + img.w ∧ (fw : ℤ) ≤ y ∧ y < fw + img.h)) :
    ((x + y) % diagSpacing fw < diagThickness fw →
      (addFrameToQRFile .diagonal false fw bg fc false gs gm ge img).pix x y = fc) ∧
    (¬((x + y) % diagSpacing fw < diagThickness fw) →
      (addFrameToQRFile .diagonal false fw bg fc false gs gm ge img).pix x y
        = (if bg.a ≠ 0 then bg else RGBA.clear)) := by
  have hpix : (addFrameToQRFile .diagonal false fw bg fc false gs gm ge img).pix x y
      = framePixel .diagonal false fw (img.w + 2 * fw) (img.h + 2 * fw) bg
          (calculateFrameColor (img.w + 2 * fw) (img.h + 2 * fw) false fc gs gm ge)
          x y := by
    unfold addFrameToQRFile
    simp only [Bool.false_eq_true, if_false]
    exact frameCanvas_pix_band .diagonal false fw bg fc false gs gm ge img x y hband
  rw [hpix, framePixel_diagonal]
  constructor
  · intro h
    rw [if_pos h]
    rfl
  · intro h
    rw [if_neg h]

/-- Witness for the amended claim C9: band pixel (0,1) with frame width 6
satisfies the stripe test and is painted with the frame color. -/
theorem addFrameToQRFile_diagonal_spec_witness :
    ((0 + 1 : ℤ) % diagSpacing 6 < diagThickness 6) ∧
    (addFrameToQRFile .diagonal false 6 RGBA.white ⟨0, 0, 0, 255⟩ false
        RGBA.clear RGBA.clear RGBA.clear diagWitnessBitmap).pix 0 1 = ⟨0, 0, 0, 255⟩ :=
  ⟨by decide,
   (addFrameToQRFile_diagonal_spec diagWitnessBitmap 6 RGBA.white ⟨0, 0, 0, 255⟩
      RGBA.clear RGBA.clear RGBA.clear 0 1 (by decide)).1 (by decide)⟩

/-- Parsing inverts printing for one hex digit. -/
theorem hexDigitVal_hexDigitChar (n : ℕ) (h : n < 16) :
    hexDigitVal (hexDigitChar n) = some n := by
  interval_cases n <;> decide

/-- A printed hex digit is never the hash mark. -/
theorem hexDigitChar_ne_hash (n : ℕ) (h : n < 16) : hexDigitChar n ≠ '#' := by
  interval_cases n <;> decide

/-- Parsing inverts printing for one byte written as two hex digits. -/
theorem hexPair_hexDigitChar (v : ℕ) (h : v < 256) :
    hexPair (hexDigitChar (v / 16)) (hexDigitChar (v % 16)) = some v := by
  unfold hexPair
  rw [hexDigitVal_hexDigitChar (v / 16) (by omega),
    hexDigitVal_hexDigitChar (v % 16) (by omega)]
  simp only
  congr 1
  omega

/-- The canonical hex spelling of a triple of bytes contains no hash mark
in front, so hash-stripping leaves it unchanged. -/
theorem trimHash_toHex6 (r g b : ℕ) (hr : r < 256) :
    trimHash (toHex6 r g b) = toHex6 r g b := by
  unfold toHex6 trimHash
  dsimp only
  rw [if_neg (hexDigitChar_ne_hash (r / 16) (by omega))]

/-- Claim C5: a valid six-hex-digit color (optional leading hash) parses to
exactly the encoded RGBA with alpha 255; any spelling of "transparent"
(case-insensitive) yields the fully transparent color; and every other
input whose hash-stripped form is not six hex digits yields the supplied
default — the parser is total and never errors. -/
theorem parseColorParam_spec (d : RGBA) (r g b : ℕ)
    (hr : r < 256) (hg : g < 256) (hb : b < 256)
    (s : List Char) (hs : s.map asciiToLower = "transparent".toList)
    (m : List Char) (hm : m ≠ [])
    (hmt : m.map asciiToLower ≠ "transparent".toList)
    (hmp : parseHex6 (trimHash m) = none) :
    parseColorParam (toHex6 r g b) d = ⟨r, g, b, 255⟩ ∧
    parseColorParam ('#' :: toHex6 r g b) d = ⟨r, g, b, 255⟩ ∧
    parseColorParam s d = RGBA.clear ∧
    parseColorParam m d = d := by
  have hparse : parseHex6 (toHex6 r g b) = some (r, g, b) := by
    unfold toHex6 parseHex6
    dsimp only
    rw [show hexPair (hexDigitChar (r / 16)) (hexDigitChar (r % 16)) = some r from
        hexPair_hexDigitChar r hr,
      show hexPair (hexDigitChar (g / 16)) (hexDigitChar (g % 16)) = some g from
        hexPair_hexDigitChar g hg,
      show hexPair (hexDigitChar (b / 16)) (hexDigitChar (b % 16)) = some b from
        hexPair_hexDigitChar b hb]
  refine ⟨?_, ?_, ?_, ?_⟩
  · unfold parseColorParam
    rw [if_neg (by simp [toHex6]),
      if_neg (fun hcontra => by simpa [toHex6] using congrArg List.length hcontra),
      trimHash_toHex6 r g b hr, hparse]
  · unfold parseColorParam
    rw [if_neg (by simp),
      if_neg (fun hcontra => by simpa [toHex6] using congrArg List.length hcontra)]
    have : trimHash ('#' :: toHex6 r g b) = toHex6 r g b := by
      unfold trimHash
      dsimp only
      rw [if_pos rfl]
    rw [this, hparse]
  · have hsne : s ≠ [] := by
      intro hcontra
      rw [hcontra] at hs
      exact absurd hs (by decide)
    unfold parseColorParam
    rw [if_neg hsne, if_pos hs]
  · unfold parseColorParam
    rw [if_neg hm, if_neg hmt, hmp]

/-- Witness for claim C5 at the color #abcdef (171,205,239), a mixed-case
"TransParent", and the malformed input "zzz". -/
theorem parseColorParam_spec_witness :
    (171 : ℕ) < 256 ∧
    parseColorParam (toHex6 171 205 239) ⟨1, 2, 3, 255⟩ = ⟨171, 205, 239, 255⟩ ∧
    parseColorParam ('#' :: toHex6 171 205 239) ⟨1, 2, 3, 255⟩ = ⟨171, 205, 239, 255⟩ ∧
    parseColorParam "TransParent".toList ⟨1, 2, 3, 255⟩ = RGBA.clear ∧
    parseColorParam "zzz".toList ⟨1, 2, 3, 255⟩ = ⟨1, 2, 3, 255⟩ :=
  ⟨by decide,
   (parseColorParam_spec ⟨1, 2, 3, 255⟩ 171 205 239 (by decide) (by decide) (by decide)
      "TransParent".toList (by decide) "zzz".toList (by decide) (by decide) (by decide)).1,
   (parseColorParam_spec ⟨1, 2, 3, 255⟩ 171 205 239 (by decide) (by decide) (by decide)
      "TransParent".toList (by decide) "zzz".toList (by decide) (by decide) (by decide)).2.1,
   (parseColorParam_spec ⟨1, 2, 3, 255⟩ 171 205 239 (by decide) (by decide) (by decide)
      "TransParent".toList (by decide) "zzz".toList (by decide) (by decide) (by decide)).2.2.1,
   (parseColorParam_spec ⟨1, 2, 3, 255⟩ 171 205 239 (by decide) (by decide) (by decide)
      "TransParent".toList (by decide) "zzz".toList (by decide) (by decide) (by decide)).2.2.2⟩

/-- Length of a flat map over an initial segment of the naturals, as a
finite sum of the block lengths. -/
theorem length_flatMap_range {α : Type} (f : ℕ → List α) (n : ℕ) :
    ((List.range n).flatMap f).length = ∑ i ∈ Finset.range n, (f i).length := by
  induction n with
  | zero => simp
  | succ n ih => simp [List.range_succ, Finset.sum_range_succ, ih]

/-- The module loop emits exactly one primitive per dark cell. -/
theorem svgModuleElems_length (m : ℕ → ℕ → Bool) (dim qrOffset ms : ℕ)
    (circleShape : Bool) :
    (svgModuleElems m dim qrOffset ms circleShape).length = darkCount dim m := by
  unfold svgModuleElems darkCount
  rw [length_flatMap_range]
  rw [Finset.card_filter, Finset.sum_product_right]
  apply Finset.sum_congr rfl
  intro y _
  rw [length_flatMap_range]
  apply Finset.sum_congr rfl
  intro x _
  split_ifs <;> simp

/-- With the circle shape every emitted module primitive is a circle
inscribed at the offset-plus-index position of its cell. -/
theorem svgModuleElems_circles (m : ℕ → ℕ → Bool) (dim qrOffset ms : ℕ) :
    ∀ e ∈ svgModuleElems m dim qrOffset ms true,
      ∃ x y : ℕ, x < dim ∧ y < dim ∧ m x y = true ∧
        e = SVGElem.circle ((qrOffset + x * ms + ms / 2 : ℕ) : ℤ)
              ((qrOffset + y * ms + ms / 2 : ℕ) : ℤ) ((ms / 2 : ℕ) : ℤ) := by
  intro e he
  unfold svgModuleElems at he
  simp only [List.mem_flatMap, List.mem_range] at he
  obtain ⟨y, hy, x, hx, hmem⟩ := he
  by_cases hxy : m x y = true
  · rw [if_pos hxy] at hmem
    simp only [if_true, List.mem_singleton] at hmem
    exact ⟨x, y, hx, hy, hxy, hmem⟩
  · rw [if_neg hxy] at hmem
    exact absurd hmem (List.not_mem_nil e)

/-- Claim C8: for an SVG render with the circle shape and no center logo,
the document contains exactly one circle element per dark module — the
circle count equals the number of true cells of the module matrix — and
every circle sits at the frame-plus-padding offset plus moduleIndex times
the module size, with radius half a module, inscribed in its cell. -/
theorem vectorSVGElems_circle_spec (m : ℕ → ℕ → Bool)
    (dim targetSize border fwp : ℕ) (useGradient : Bool) (bg : RGBA)
    (frameNone brandingText : Bool) :
    (vectorSVGElems m dim targetSize border fwp useGradient bg frameNone true false
        brandingText).countP SVGElem.isCircle = darkCount dim m ∧
    ∀ e ∈ vectorSVGElems m dim targetSize border fwp useGradient bg frameNone true false
        brandingText, e.isCircle = true →
      ∃ x y : ℕ, x < dim ∧ y < dim ∧ m x y = true ∧
        e = SVGElem.circle
              ((svgQROffset targetSize border fwp frameNone +
                  x * svgModuleSize targetSize dim + svgModuleSize targetSize dim / 2 : ℕ) : ℤ)
              ((svgQROffset targetSize border fwp frameNone +
                  y * svgModuleSize targetSize dim + svgModuleSize targetSize dim / 2 : ℕ) : ℤ)
              ((svgModuleSize targetSize dim / 2 : ℕ) : ℤ) := by
  have hmod : (svgModuleElems m dim (svgQROffset targetSize border fwp frameNone)
      (svgModuleSize targetSize dim) true).countP SVGElem.isCircle = darkCount dim m := by
    rw [← svgModuleElems_length m dim (svgQROffset targetSize border fwp frameNone)
      (svgModuleSize targetSize dim) true]
    rw [List.countP_eq_length]
    intro e he
    obtain ⟨x, y, _, _, _, he'⟩ := svgModuleElems_circles m dim
      (svgQROffset targetSize border fwp frameNone) (svgModuleSize targetSize dim) e he
    rw [he']
    rfl
  constructor
  · unfold vectorSVGElems
    simp only [List.countP_append]
    rw [hmod]
    split_ifs <;> simp_all [List.countP_cons, SVGElem.isCircle]
  · intro e he hc
    unfold vectorSVGElems at he
    simp only [List.mem_append] at he
    rcases he with ((((h1 | h2) | h3) | h4) | h5) | h6
    · exfalso
      split_ifs at h1
      · simp only [List.mem_singleton] at h1
        subst h1
        simp [SVGElem.isCircle] at hc
      · simp at h1
    · exfalso
      split_ifs at h2
      · simp only [List.mem_singleton] at h2
        subst h2
        simp [SVGElem.isCircle] at hc
      · simp at h2
    · exfalso
      split_ifs at h3
      · simp at h3
      · simp only [List.mem_cons, List.not_mem_nil, or_false] at h3
        rcases h3 with h | h | h | h <;> subst h <;> simp [SVGElem.isCircle] at hc
    · exact svgModuleElems_circles m dim (svgQROffset targetSize border fwp frameNone)
        (svgModuleSize targetSize dim) e h4
    · exfalso
      simp at h5
    · exfalso
      split_ifs at h6
      · simp only [List.mem_singleton] at h6
        subst h6
        simp [SVGElem.isCircle] at hc
      · simp at h6

/-- Witness for claim C8: a 2 x 2 matrix with three dark cells yields an
SVG with exactly three circles. -/
theorem vectorSVGElems_circle_spec_witness :
    darkCount 2 svgWitnessMatrix = 3 ∧
    (vectorSVGElems svgWitnessMatrix 2 400 7 4 false RGBA.white false true false
        true).countP SVGElem.isCircle = darkCount 2 svgWitnessMatrix :=
  ⟨by decide,
   (vectorSVGElems_circle_spec svgWitnessMatrix 2 400 7 4 false RGBA.white false true).1⟩
